import Mathlib

/-!
Verification of the docstring checker of flake8-test-docs.

Python strings are modelled as lists of characters (`Str`).  Fallible code is
modelled with `Option`: the outermost `none` of `docstring_problem_message_raw`
stands for an uncaught IndexError.  Machine-independent Python string methods
(splitlines, strip, startswith, count, slicing) are translated to executable
Lean functions below.
-/

namespace Flake8TestDocs

/-- Python strings are modelled as lists of characters. -/
abbrev Str := List Char

/-- Characters treated as whitespace by Python's str.strip / str.isspace
(ASCII whitespace, the separator control characters and next-line). -/
def pyIsSpace (c : Char) : Bool :=
  c = ' ' || c = '\t' || c = '\n' || c = '\x0b' || c = '\x0c' || c = '\r' ||
  c = '\x1c' || c = '\x1d' || c = '\x1e' || c = '\x1f' || c = '\x85'

/-- Line boundary characters recognised by Python's str.splitlines. -/
def isLineBoundary (c : Char) : Bool :=
  c = '\n' || c = '\r' || c = '\x0b' || c = '\x0c' ||
  c = '\x1c' || c = '\x1d' || c = '\x1e' || c = '\x85' ||
  c = '\u2028' || c = '\u2029'

/-- Python str.splitlines: break at line boundaries, treating a carriage
return followed by a newline as a single boundary; a trailing boundary does
not produce a final empty line. -/
def pySplitlines : Str → List Str
  | [] => []
  | c :: rest =>
    if isLineBoundary c then
      match rest with
      | [] => [[]]
      | d :: rest2 =>
        if c = '\r' ∧ d = '\n' then
          [] :: pySplitlines rest2
        else
          [] :: pySplitlines (d :: rest2)
    else
      match pySplitlines rest with
      | [] => [[c]]
      | l :: ls => (c :: l) :: ls

/-- Python str.lstrip with no argument: drop leading whitespace. -/
def pyLStrip (s : Str) : Str := s.dropWhile pyIsSpace

/-- Python str.rstrip with no argument: drop trailing whitespace. -/
def pyRStrip (s : Str) : Str := ((s.reverse).dropWhile pyIsSpace).reverse

/-- Python str.strip with no argument: drop whitespace from both ends. -/
def pyStrip (s : Str) : Str := pyRStrip (pyLStrip s)

/-- Render a modelled Python string for inclusion in a diagnostic message. -/
def pstr (s : Str) : String := ⟨s⟩

/-- Fixed description of the first section, ARRANGE_DESCRIPTION in the source. -/
def ARRANGE_DESCRIPTION : String := "setup"

/-- Fixed description of the second section, ACT_DESCRIPTION in the source. -/
def ACT_DESCRIPTION : String := "execution"

/-- Fixed description of the third section, ASSERT_DESCRIPTION in the source. -/
def ASSERT_DESCRIPTION : String := "checks"

/-- DocsPattern from the source: the ordered triple of section names. -/
structure DocsPattern where
  arrange : Str
  act : Str
  assert_ : Str

/-- Default docs pattern, the string "arrange/act/assert" split on "/". -/
def TEST_DOCS_PATTERN_DEFAULT : DocsPattern :=
  ⟨"arrange".toList, "act".toList, "assert".toList⟩

/-- Section from the source: information about one docstring section. -/
structure Section where
  index_ : Nat
  name : Str
  description : String
  next_section_name : Option Str

/-- Message of the extra-empty-line violation at the start of a section. -/
def emptyStartMsg (index_ : Nat) : String :=
  "there should only be a single empty line at the start of the docstring, " ++
    "found an empty line on line " ++ toString index_

/-- Message of the missing-section-name violation. -/
def nameMissingMsg (name : Str) (description : String) (index_ : Nat) : String :=
  "the docstring should include \"" ++ pstr name ++ "\" describing the test " ++
    description ++ " on line " ++ toString index_ ++ " of the docstring"

/-- Message of the header-indentation violation. -/
def headerIndentMsg (index_ : Nat) : String :=
  "the indentation of line " ++ toString index_ ++
    " of the docstring should match the indentation of the docstring"

/-- Message of the missing-colon-header violation. -/
def colonMsg (name : Str) (index_ : Nat) : String :=
  "line " ++ toString index_ ++ " of the docstring should start with \"" ++
    pstr name ++ ":\""

/-- Message of the missing-description violation after a section header. -/
def noDescriptionMsg (name : Str) (description : String) (index_ : Nat) : String :=
  "\"" ++ pstr name ++ ":\" should be followed by a description of the test " ++
    description ++ " on line " ++ toString index_ ++ " of the docstring"

/-- Message of the empty-line-in-description violation. -/
def emptyLineMsg (description : String) (line_index : Nat) : String :=
  "there should not be an empty line in the test " ++ description ++
    " description on line " ++ toString line_index ++ " of the docstring"

/-- Message of the continuation-indentation violation. -/
def contIndentMsg (description : String) (line_index : Nat) (indent_size : Nat)
    (name : Str) (index_ : Nat) : String :=
  "test " ++ description ++ " description on line " ++ toString line_index ++
    " should be indented by " ++ toString indent_size ++
    " more spaces than \"" ++ pstr name ++ ":\" on line " ++ toString index_

/-- Message of the closing-line-indentation violation. -/
def closingMsg (section_index : Nat) : String :=
  "the indentation of the last line of the docstring at line " ++
    toString section_index ++
    " should match the indentation of the docstring"

/-- Message of the empty-docstring violation. -/
def emptyDocstringMsg : String := "the docstring should not be empty"

/-- Message of the missing-leading-empty-line violation. -/
def startNewlineMsg : String := "the docstring should start with an empty line"

/-- Translation of the source's section_start_problem_message: check the first
line of a section.  Python truthiness of strings is emptiness, "in" is
substring containment, and slicing past the end yields the empty string. -/
def section_start_problem_message (line : Str) (sec : Section) (col_offset : Nat)
    (sectionPrefix : Str) : Option String :=
  if line = [] then
    some (emptyStartMsg sec.index_)
  else if decide (sec.name <:+: line) = false then
    some (nameMissingMsg sec.name sec.description sec.index_)
  else if sectionPrefix.isPrefixOf line = false then
    some (headerIndentMsg sec.index_)
  else if (sec.name ++ [':']).isPrefixOf (line.drop col_offset) = false then
    some (colonMsg sec.name sec.index_)
  else if line.drop (col_offset + sec.name.length + 1) = [] then
    some (noDescriptionMsg sec.name sec.description sec.index_)
  else
    none

/-- Translation of the source's next_section_start: detect whether the line is
the start of the next section.  The three disjuncts are, in order: the
stripped line starts with the next section name; the line is shorter than the
section indentation and all spaces; the line starts with exactly the section
indentation not followed by a space. -/
def next_section_start (line : Str) (next_section_name : Option Str)
    (sectionPrefix : Str) : Bool :=
  (match next_section_name with
   | some name => name.isPrefixOf (pyStrip line)
   | none => false) ||
  (decide (line.length < sectionPrefix.length) &&
    decide (line.count ' ' = line.length)) ||
  (sectionPrefix.isPrefixOf line &&
    !([' '].isPrefixOf (line.drop sectionPrefix.length)))

/-- Loop body of the source's remaining_description_problem_message.  The
Python for-loop over range(line_index, len(docstring_lines)) with indexing is
rendered as a traversal of the corresponding suffix of the line list paired
with the running index; on normal loop exit the loop variable keeps its last
value, which the final match reproduces. -/
def remaining_description_loop (sec : Section) (sectionPrefix : Str)
    (descriptionPrefix : Str) (indent_size : Nat) :
    List Str → Nat → Option String × Nat
  | [], line_index => (none, line_index)
  | line :: rest, line_index =>
    if line = [] then
      (some (emptyLineMsg sec.description line_index), line_index)
    else if next_section_start line sec.next_section_name sectionPrefix then
      (none, line_index)
    else if descriptionPrefix.isPrefixOf line = false ∨
        [' '].isPrefixOf (line.drop descriptionPrefix.length) = true then
      (some (contIndentMsg sec.description line_index indent_size sec.name sec.index_),
        line_index)
    else
      match rest with
      | [] => (none, line_index)
      | _ :: _ =>
        remaining_description_loop sec sectionPrefix descriptionPrefix indent_size
          rest (line_index + 1)

/-- Translation of the source's remaining_description_problem_message: check
the description lines of a section after its first line, returning the
problem (if any) and the index at which the scan stopped. -/
def remaining_description_problem_message (sec : Section) (docstring_lines : List Str)
    (sectionPrefix : Str) (descriptionPrefix : Str) (indent_size : Nat) :
    Option String × Nat :=
  remaining_description_loop sec sectionPrefix descriptionPrefix indent_size
    (docstring_lines.drop (sec.index_ + 1)) (sec.index_ + 1)

/-- One step per configured section of the loop in the source's
docstring_problem_message.  The lookup docstring_lines[section.index_] is the
only indexing the source performs that can be out of bounds; a `none` result
models the uncaught IndexError it raises in that case. -/
def sections_loop (docstring_lines : List Str) (col_offset : Nat)
    (sectionPrefix : Str) (descriptionPrefix : Str) (indent_size : Nat) :
    List (Str × String × Option Str) → Nat → Option (Option String × Nat)
  | [], section_index => some (none, section_index)
  | (name, description, next_name) :: rest, section_index =>
    match docstring_lines[section_index]? with
    | none => none
    | some line =>
      let sec : Section := ⟨section_index, name, description, next_name⟩
      match section_start_problem_message line sec col_offset sectionPrefix with
      | some msg => some (some msg, section_index)
      | none =>
        match remaining_description_problem_message sec docstring_lines
            sectionPrefix descriptionPrefix indent_size with
        | (some msg, idx) => some (some msg, idx)
        | (none, idx) =>
          sections_loop docstring_lines col_offset sectionPrefix descriptionPrefix
            indent_size rest idx

/-- Zip performed in the source: pair each section name with its fixed
description and the following section's name (none for the last). -/
def sections_list (docs_pattern : DocsPattern) : List (Str × String × Option Str) :=
  [(docs_pattern.arrange, ARRANGE_DESCRIPTION, some docs_pattern.act),
   (docs_pattern.act, ACT_DESCRIPTION, some docs_pattern.assert_),
   (docs_pattern.assert_, ASSERT_DESCRIPTION, none)]

/-- Translation of the source's docstring_problem_message before its
message-decorating wrapper.  Result: `none` models an uncaught IndexError,
`some none` a valid docstring, `some (some msg)` the first problem found. -/
def docstring_problem_message_raw (docstring : Str) (col_offset : Nat)
    (docs_pattern : DocsPattern) (indent_size : Nat) : Option (Option String) :=
  if docstring = [] then
    some (some emptyDocstringMsg)
  else if ['\n'].isPrefixOf docstring = false then
    some (some startNewlineMsg)
  else
    let docstring_lines := pySplitlines docstring
    let sectionPrefix : Str := List.replicate col_offset ' '
    let descriptionPrefix : Str := sectionPrefix ++ List.replicate indent_size ' '
    match sections_loop docstring_lines col_offset sectionPrefix descriptionPrefix
        indent_size (sections_list docs_pattern) 1 with
    | none => none
    | some (some msg, _) => some (some msg)
    | some (none, section_index) =>
      if docstring_lines.length ≤ section_index ∨
          docstring_lines[section_index]? ≠ some sectionPrefix then
        some (some (closingMsg section_index))
      else
        some none

/-- MORE_INFO_BASE from the source. -/
def MORE_INFO_BASE : String :=
  "more information: https://github.com/jdkandersson/flake8-test-docs"

/-- MISSING_CODE from the source.  The rule-code letters (ERROR_CODE_PREFIX)
are read from packaging metadata (pyproject.toml) that is not part of the
checked sources, so they are kept as a parameter throughout. -/
def MISSING_CODE (codePrefix : String) : String := codePrefix ++ "001"

/-- INVALID_CODE from the source. -/
def INVALID_CODE (codePrefix : String) : String := codePrefix ++ "002"

/-- MISSING_MSG from the source. -/
def MISSING_MSG (codePrefix : String) : String :=
  MISSING_CODE codePrefix ++ " Docstring not defined on test function, " ++
    MORE_INFO_BASE ++ "#fix-" ++ (MISSING_CODE codePrefix).toLower

/-- INVALID_MSG_POSTFIX from the source. -/
def INVALID_MSG_POSTFIX (codePrefix : String) : String :=
  ", " ++ MORE_INFO_BASE ++ "#fix-" ++ (INVALID_CODE codePrefix).toLower

/-- The source's docstring_problem_message including the decoration applied by
the append_invalid_msg_prefix_postfix wrapper: a problem message gains the
INVALID_CODE in front and the more-information link behind. -/
def docstring_problem_message (codePrefix : String) (docstring : Str)
    (col_offset : Nat) (docs_pattern : DocsPattern) (indent_size : Nat) :
    Option (Option String) :=
  (docstring_problem_message_raw docstring col_offset docs_pattern indent_size).map
    (Option.map (fun m =>
      INVALID_CODE codePrefix ++ " " ++ m ++ INVALID_MSG_POSTFIX codePrefix))

/-- Regular expressions as the re module receives them, already parsed:
literal characters, the any-character dot, concatenation, alternation and
Kleene star. -/
inductive Regex where
  | emptyset
  | epsilon
  | lit (c : Char)
  | dot
  | cat (r s : Regex)
  | alt (r s : Regex)
  | star (r : Regex)

/-- Whether the regular expression accepts the empty string. -/
def Regex.nullable : Regex → Bool
  | .emptyset => false
  | .epsilon => true
  | .lit _ => false
  | .dot => false
  | .cat r s => r.nullable && s.nullable
  | .alt r s => r.nullable || s.nullable
  | .star _ => true

/-- Brzozowski derivative of a regular expression by one character. -/
def Regex.deriv : Regex → Char → Regex
  | .emptyset, _ => .emptyset
  | .epsilon, _ => .emptyset
  | .lit c, a => if a = c then .epsilon else .emptyset
  | .dot, _ => .epsilon
  | .cat r s, a =>
    if r.nullable then .alt (.cat (r.deriv a) s) (s.deriv a)
    else .cat (r.deriv a) s
  | .alt r s, a => .alt (r.deriv a) (s.deriv a)
  | .star r, a => .cat (r.deriv a) (.star r)

/-- Python re.match semantics: the match is anchored at the start of the
string and succeeds as soon as some prefix of the string is accepted. -/
def re_match (r : Regex) : Str → Bool
  | [] => r.nullable
  | c :: rest => r.nullable || re_match (r.deriv c) rest

/-- Concatenation of literal characters as a regular expression. -/
def chars : Str → Regex
  | [] => .epsilon
  | c :: rest => .cat (.lit c) (chars rest)

/-- Default test-function pattern, the regular expression test_.* . -/
def TEST_DOCS_FUNCTION_PATTERN_DEFAULT : Regex :=
  .cat (chars "test_".toList) (.star .dot)

/-- Default test-file pattern, the regular expression test_.*.py (the dot
before py is an unescaped any-character dot, as in the source). -/
def TEST_DOCS_FILENAME_PATTERN_DEFAULT : Regex :=
  .cat (chars "test_".toList)
    (.cat (.star .dot) (.cat .dot (.cat (.lit 'p') (.lit 'y'))))

/-- Constant value of an ast.Constant as far as the visitor inspects it:
either a string or some other constant. -/
inductive PyConst where
  | str (s : Str)
  | nonStr

/-- Expression node: its position, and whether it is an ast.Constant. -/
inductive PyExpr where
  | constant (value : PyConst) (lineno : Nat) (col_offset : Nat)
  | nonConstant (lineno : Nat) (col_offset : Nat)

/-- Statement node as far as the visitor distinguishes statements: a
FunctionDef with name, position and body; any other statement with child
statements that the generic visit recurses into (ClassDef, If, With, and so
on); a standalone expression statement (ast.Expr); or any other childless
statement (pass, return, assignments, ...). -/
inductive PyStmt where
  | functionDef (name : Str) (lineno : Nat) (col_offset : Nat) (body : List PyStmt)
  | compound (body : List PyStmt)
  | exprStmt (value : PyExpr)
  | leaf

/-- Problem from the source: a reported violation with its position. -/
structure Problem where
  lineno : Nat
  col_offset : Nat
  msg : String
deriving DecidableEq

/-- Visitor configuration: the values the Visitor constructor receives, plus
the rule-code letters the source reads from packaging metadata. -/
structure Config where
  codePrefix : String
  test_docs_pattern : DocsPattern
  test_function_pattern : Regex
  indent_size : Nat

/-- The docstring extraction performed by visit_FunctionDef: the body's first
statement must exist and be a standalone string-constant expression; in that
case its text, line and column are returned. -/
def body_docstring : List PyStmt → Option (Str × Nat × Nat)
  | PyStmt.exprStmt (PyExpr.constant (PyConst.str s) lineno col_offset) :: _ =>
    some (s, lineno, col_offset)
  | _ => none

/-- The per-function work of visit_FunctionDef: when the name matches the
test-function pattern, either the MISSING problem anchored at the function
definition, or the checker's verdict anchored at the docstring literal.  The
outer `none` propagates the checker's modelled IndexError. -/
def check_function (cfg : Config) (name : Str) (lineno : Nat) (col_offset : Nat)
    (body : List PyStmt) : Option (Option Problem) :=
  if re_match cfg.test_function_pattern name then
    match body_docstring body with
    | none => some (some ⟨lineno, col_offset, MISSING_MSG cfg.codePrefix⟩)
    | some (s, slineno, scol) =>
      match docstring_problem_message cfg.codePrefix s scol cfg.test_docs_pattern
          cfg.indent_size with
      | none => none
      | some none => some none
      | some (some msg) => some (some ⟨slineno, scol, msg⟩)
  else
    some none

mutual

/-- The Visitor's traversal of one statement: visit_FunctionDef appends this
function's problem (if any) and then generic_visit recurses into the children;
every other node only recurses.  A `none` result propagates the modelled
IndexError of the checker. -/
def visit_stmt (cfg : Config) : PyStmt → Option (List Problem)
  | .functionDef name lineno col_offset body =>
    match check_function cfg name lineno col_offset body with
    | none => none
    | some p? =>
      match visit_stmts cfg body with
      | none => none
      | some rest => some (p?.toList ++ rest)
  | .compound body => visit_stmts cfg body
  | .exprStmt _ => some []
  | .leaf => some []

/-- Traversal of a list of sibling statements in document order. -/
def visit_stmts (cfg : Config) : List PyStmt → Option (List Problem)
  | [] => some []
  | s :: rest =>
    match visit_stmt cfg s with
    | none => none
    | some ps =>
      match visit_stmts cfg rest with
      | none => none
      | some qs => some (ps ++ qs)

end

/-- Split a character list on slashes. -/
def splitOnSlash : Str → List Str
  | [] => [[]]
  | c :: rest =>
    if c = '/' then [] :: splitOnSlash rest
    else
      match splitOnSlash rest with
      | [] => [[c]]
      | p :: ps => (c :: p) :: ps

/-- Components of a POSIX path as pathlib parses it: split on slashes,
dropping empty and single-dot components. -/
def pathParts (filename : Str) : List Str :=
  (splitOnSlash filename).filter (fun p => decide (p ≠ [] ∧ p ≠ ['.']))

/-- Python Path(filename).name: the final path component, or empty when there
is none. -/
def pathName (filename : Str) : Str :=
  ((pathParts filename).getLast?).getD []

/-- Plugin configuration: the Visitor configuration plus the file-name
pattern. -/
structure PluginConfig extends Config where
  test_docs_filename_pattern : Regex

/-- Plugin.run from the source: nothing is yielded when the file name does not
match the file-name pattern; otherwise the visitor runs over the tree and its
problems are yielded in order as (line, column, message) triples (the fourth
component of the yielded tuples, the plugin class itself, is constant and
omitted).  A `none` result propagates the modelled IndexError. -/
def Plugin.run (cfg : PluginConfig) (tree : List PyStmt) (filename : Str) :
    Option (List (Nat × Nat × String)) :=
  if re_match cfg.test_docs_filename_pattern (pathName filename) = false then
    some []
  else
    match visit_stmts cfg.toConfig tree with
    | none => none
    | some problems => some (problems.map (fun p => (p.lineno, p.col_offset, p.msg)))

/-- INDENT_SIZE_DEFAULT from the source. -/
def INDENT_SIZE_DEFAULT : Nat := 4

/-- Visitor configuration holding all default option values. -/
def defaultConfig (codePrefix : String) : Config :=
  ⟨codePrefix, TEST_DOCS_PATTERN_DEFAULT, TEST_DOCS_FUNCTION_PATTERN_DEFAULT,
    INDENT_SIZE_DEFAULT⟩

/-- Plugin configuration holding all default option values. -/
def defaultPluginConfig (codePrefix : String) : PluginConfig :=
  ⟨defaultConfig codePrefix, TEST_DOCS_FILENAME_PATTERN_DEFAULT⟩

/-- Conditions under which the continuation scan accepts a line and moves on:
the line is nonempty, is not recognised as the start of the next section, and
is indented by exactly the description prefix. -/
abbrev contPasses (sec : Section) (sectionPrefix descriptionPrefix : Str)
    (line : Str) : Prop :=
  line ≠ [] ∧
  next_section_start line sec.next_section_name sectionPrefix = false ∧
  descriptionPrefix.isPrefixOf line = true ∧
  [' '].isPrefixOf (line.drop descriptionPrefix.length) = false

/-- The next-section-start heuristic exactly as the claim states it, for
comparison with the source's next_section_start: its third disjunct demands an
actual non-space character right after the section prefix. -/
def claimedNextSectionStart (line : Str) (next_section_name : Option Str)
    (sectionPrefix : Str) : Prop :=
  (∃ name, next_section_name = some name ∧ name.isPrefixOf (pyStrip line) = true) ∨
  (line.length < sectionPrefix.length ∧ ∀ ch ∈ line, ch = ' ') ∨
  (sectionPrefix.isPrefixOf line = true ∧
    ∃ ch rest, line.drop sectionPrefix.length = ch :: rest ∧ ch ≠ ' ')

/-- One section of the docstring grammar stated by the claim of validity
closure: the header text after the colon and space, and the texts of the
continuation lines, each written after the description indentation. -/
structure SectionInput where
  text : Str
  conts : List Str

/-- Join lines with newlines, ending with the final line, without a trailing
newline. -/
def joinLines : List Str → Str → Str
  | [], lastLine => lastLine
  | l :: ls, lastLine => l ++ '\n' :: joinLines ls lastLine

/-- Header line of the claimed grammar: indentation, section name, colon,
space and header text. -/
def headerLine (sectionPrefix name t : Str) : Str :=
  sectionPrefix ++ (name ++ ':' :: ' ' :: t)

/-- Lines of one section block of the claimed grammar: a header line followed
by continuation lines at the description indentation. -/
def blockLines (sectionPrefix descriptionPrefix name : Str)
    (s : SectionInput) : List Str :=
  headerLine sectionPrefix name s.text ::
    s.conts.map (fun u => descriptionPrefix ++ u)

/-- The docstring of the claimed grammar: an empty first line, the three
section blocks in pattern order, and a final line equal to the indentation
prefix. -/
def claimDocstring (sectionPrefix descriptionPrefix : Str) (p : DocsPattern)
    (s1 s2 s3 : SectionInput) : Str :=
  '\n' :: joinLines
    (blockLines sectionPrefix descriptionPrefix p.arrange s1 ++
     blockLines sectionPrefix descriptionPrefix p.act s2 ++
     blockLines sectionPrefix descriptionPrefix p.assert_ s3)
    sectionPrefix

/-- Occurrence of a statement anywhere in a statement tree: at the root, or
nested inside the body of a function definition or of any other compound
statement, at arbitrary depth. -/
inductive OccursIn : PyStmt → PyStmt → Prop where
  | here (s : PyStmt) : OccursIn s s
  | inFunctionDef {s t : PyStmt} (name : Str) (lineno col_offset : Nat)
      (body : List PyStmt) (hmem : t ∈ body) (h : OccursIn s t) :
      OccursIn s (.functionDef name lineno col_offset body)
  | inCompound {s t : PyStmt} (body : List PyStmt) (hmem : t ∈ body)
      (h : OccursIn s t) : OccursIn s (.compound body)

/-! Helper lemmas about the modelled Python string primitives. -/

theorem splitlines_cons_nb (c : Char) (s : Str) (hc : isLineBoundary c = false) :
    pySplitlines (c :: s) = match pySplitlines s with
      | [] => [[c]]
      | l :: ls => (c :: l) :: ls := by
  rw [pySplitlines.eq_def]
  simp only [hc]
  rfl

theorem splitlines_cons_nl (s : Str) :
    pySplitlines ('\n' :: s) = [] :: pySplitlines s := by
  rw [pySplitlines.eq_def]
  simp only [show isLineBoundary '\n' = true from by decide, if_true]
  cases s with
  | nil => rfl
  | cons d s' =>
    simp only []
    rw [if_neg]
    rintro ⟨h1, h2⟩
    exact absurd h1 (by decide)

theorem splitlines_line_append (l : Str) (rest : Str)
    (hl : ∀ ch ∈ l, isLineBoundary ch = false) :
    pySplitlines (l ++ '\n' :: rest) = l :: pySplitlines rest := by
  induction l with
  | nil => simpa using splitlines_cons_nl rest
  | cons c cs ih =>
    have hc : isLineBoundary c = false := hl c (by simp)
    rw [List.cons_append, splitlines_cons_nb c _ hc,
      ih (fun ch h => hl ch (by simp [h]))]

theorem splitlines_no_boundary : ∀ (f : Str),
    (∀ ch ∈ f, isLineBoundary ch = false) → f ≠ [] → pySplitlines f = [f]
  | [], _, hne => absurd rfl hne
  | [c], hf, _ => by
    rw [splitlines_cons_nb c [] (hf c (by simp))]
    rfl
  | c :: d :: ds, hf, _ => by
    rw [splitlines_cons_nb c (d :: ds) (hf c (by simp))]
    rw [splitlines_no_boundary (d :: ds) (fun ch h => hf ch (by simp [h])) (by simp)]

theorem splitlines_joinLines : ∀ (ls : List Str) (lastLine : Str),
    (∀ l ∈ ls, ∀ ch ∈ l, isLineBoundary ch = false) →
    (∀ ch ∈ lastLine, isLineBoundary ch = false) → lastLine ≠ [] →
    pySplitlines (joinLines ls lastLine) = ls ++ [lastLine]
  | [], lastLine, _, hlast, hne => by
    simpa [joinLines] using splitlines_no_boundary lastLine hlast hne
  | l :: ls', lastLine, hls, hlast, hne => by
    rw [show joinLines (l :: ls') lastLine = l ++ '\n' :: joinLines ls' lastLine
      from rfl]
    rw [splitlines_line_append l _ (hls l (by simp))]
    rw [splitlines_joinLines ls' lastLine (fun l' h' => hls l' (by simp [h'])) hlast hne]
    rfl

theorem all_spaces_iff (line : Str) :
    line.count ' ' = line.length ↔ ∀ ch ∈ line, ch = ' ' := by
  rw [List.count_eq_length]
  exact ⟨fun h ch hm => (h ch hm).symm, fun h ch hm => (h ch hm).symm⟩

theorem dropWhile_append_cons (p : Char → Bool) (u v : Str) (ch : Char)
    (h : p ch = false) :
    List.dropWhile p (u ++ ch :: v) = List.dropWhile p u ++ ch :: v := by
  induction u with
  | nil => simp [List.dropWhile_cons, h]
  | cons a u' ih =>
    by_cases ha : p a
    · simp [List.dropWhile_cons, ha, ih]
    · simp [List.dropWhile_cons, ha]

theorem dropWhile_spaces_append (pre x : Str)
    (hpre : ∀ ch ∈ pre, pyIsSpace ch = true) :
    List.dropWhile pyIsSpace (pre ++ x) = List.dropWhile pyIsSpace x := by
  induction pre with
  | nil => simp
  | cons a pre' ih =>
    rw [List.cons_append, List.dropWhile_cons, if_pos (hpre a (by simp))]
    exact ih (fun ch h => hpre ch (by simp [h]))

theorem replicate_space_all (n : Nat) :
    ∀ ch ∈ List.replicate n ' ', pyIsSpace ch = true := by
  intro ch h
  rw [List.eq_of_mem_replicate h]
  decide

theorem pyStrip_header (sp name v : Str)
    (hsp : ∀ ch ∈ sp, pyIsSpace ch = true) (hname : pyLStrip name = name) :
    ∃ w, pyStrip (sp ++ (name ++ ':' :: v)) = name ++ ':' :: w := by
  unfold pyLStrip at hname
  unfold pyStrip pyLStrip pyRStrip
  rw [dropWhile_spaces_append _ _ hsp]
  rw [dropWhile_append_cons _ _ _ _ (by decide), hname]
  refine ⟨(List.dropWhile pyIsSpace v.reverse).reverse, ?_⟩
  have hrev : (name ++ ':' :: v).reverse = v.reverse ++ ':' :: name.reverse := by
    simp [List.reverse_append]
  rw [hrev, dropWhile_append_cons _ _ _ _ (by decide)]
  simp [List.reverse_append]

/-! Helper lemmas about the checker's scanning functions. -/

theorem header_next_start (sp name v : Str) (c : Nat)
    (hsp : sp = List.replicate c ' ') (hname : pyLStrip name = name) :
    next_section_start (sp ++ (name ++ ':' :: v)) (some name) sp = true := by
  obtain ⟨w, hw⟩ := pyStrip_header sp name v
    (by rw [hsp]; exact replicate_space_all c) hname
  unfold next_section_start
  rw [hw]
  have : name.isPrefixOf (name ++ ':' :: w) = true :=
    List.isPrefixOf_iff_prefix.mpr ⟨':' :: w, rfl⟩
  simp [this]

theorem final_next_start (sp : Str) (nx : Option Str) :
    next_section_start sp nx sp = true := by
  unfold next_section_start
  have h1 : sp.isPrefixOf sp = true := List.isPrefixOf_iff_prefix.mpr ⟨[], by simp⟩
  have h2 : sp.drop sp.length = [] := List.drop_length sp
  rw [h2]
  simp [h1]

theorem cont_not_next_start (sp u : Str) (c w : Nat) (nx : Option Str)
    (hsp : sp = List.replicate c ' ') (hw : 1 ≤ w)
    (hni : ∀ m, nx = some m →
      m.isPrefixOf (pyStrip ((sp ++ List.replicate w ' ') ++ u)) = false) :
    next_section_start ((sp ++ List.replicate w ' ') ++ u) nx sp = false := by
  unfold next_section_start
  have hlen : ((sp ++ List.replicate w ' ') ++ u).length = c + w + u.length := by
    simp [hsp]
  have hd2 : decide (((sp ++ List.replicate w ' ') ++ u).length < sp.length) = false := by
    simp [hlen, hsp]
    omega
  have hd3 : [' '].isPrefixOf (((sp ++ List.replicate w ' ') ++ u).drop sp.length)
      = true := by
    rw [List.append_assoc, List.drop_left]
    cases w with
    | zero => omega
    | succ w' =>
      rw [List.replicate_succ, List.cons_append]
      exact List.isPrefixOf_iff_prefix.mpr ⟨List.replicate w' ' ' ++ u, rfl⟩
  rw [hd3]
  cases nx with
  | none => simp [hd2]
  | some m =>
    simp only [hd2, Bool.false_and, Bool.or_false]
    rw [hni m rfl]
    simp

theorem header_passes (sp name t : Str) (desc : String) (c i : Nat)
    (nx : Option Str) (hsp : sp = List.replicate c ' ') :
    section_start_problem_message (sp ++ (name ++ ':' :: ' ' :: t))
      ⟨i, name, desc, nx⟩ c sp = none := by
  have hlensp : sp.length = c := by rw [hsp]; exact List.length_replicate c ' '
  unfold section_start_problem_message
  rw [if_neg (by simp)]
  rw [if_neg (by
    simp only [Bool.not_eq_false, decide_eq_true_eq]
    exact ⟨sp, ':' :: ' ' :: t, by simp⟩)]
  rw [if_neg (by
    simp only [Bool.not_eq_false]
    exact List.isPrefixOf_iff_prefix.mpr ⟨name ++ ':' :: ' ' :: t, rfl⟩)]
  have hdropc : (sp ++ (name ++ ':' :: ' ' :: t)).drop c = name ++ ':' :: ' ' :: t := by
    rw [← hlensp, List.drop_left]
  rw [if_neg (by
    simp only [Bool.not_eq_false, hdropc]
    exact List.isPrefixOf_iff_prefix.mpr ⟨' ' :: t, by simp⟩)]
  rw [if_neg (by
    have hdp : (sp ++ (name ++ ':' :: ' ' :: t)).drop (c + name.length + 1)
        = ' ' :: t := by
      have h2 : c + name.length + 1 = (sp ++ (name ++ [':'])).length := by
        simp [hlensp]
        omega
      have h3 : sp ++ (name ++ ':' :: ' ' :: t) = (sp ++ (name ++ [':'])) ++ ' ' :: t := by
        simp
      rw [h2, h3, List.drop_left]
    rw [hdp]
    simp)]

theorem loop_stop (sec : Section) (sp dp : Str) (w : Nat) (stop : Str)
    (rest : List Str) (j : Nat) (hne : stop ≠ [])
    (hnx : next_section_start stop sec.next_section_name sp = true) :
    remaining_description_loop sec sp dp w (stop :: rest) j = (none, j) := by
  cases rest with
  | nil => rw [remaining_description_loop.eq_2, if_neg hne, if_pos hnx]
  | cons a as => rw [remaining_description_loop.eq_3, if_neg hne, if_pos hnx]

theorem remaining_loop_skip (sec : Section) (sp dp : Str) (w : Nat)
    (conts : List Str) (stop : Str) (rest : List Str) (i : Nat)
    (hc : ∀ l ∈ conts, contPasses sec sp dp l) :
    remaining_description_loop sec sp dp w (conts ++ stop :: rest) i =
      remaining_description_loop sec sp dp w (stop :: rest) (i + conts.length) := by
  induction conts generalizing i with
  | nil => simp
  | cons c cs ih =>
    obtain ⟨h1, h2, h3, h4⟩ := hc c (by simp)
    have step : remaining_description_loop sec sp dp w (c :: (cs ++ stop :: rest)) i =
        remaining_description_loop sec sp dp w (cs ++ stop :: rest) (i + 1) := by
      cases hcs : cs ++ stop :: rest with
      | nil => exact absurd hcs (by simp)
      | cons a as =>
        rw [remaining_description_loop.eq_3]
        rw [if_neg h1, if_neg (by simp [h2]), if_neg (by simp [h3, h4])]
    rw [List.cons_append, step, ih (i + 1) (fun l hm => hc l (by simp [hm]))]
    have : i + 1 + cs.length = i + (c :: cs).length := by simp; omega
    rw [this]

theorem get_of_drop_cons {l : List Str} {i : Nat} {x : Str} {xs : List Str}
    (h : l.drop i = x :: xs) : l[i]? = some x := by
  have h0 := List.getElem?_drop l i 0
  rw [h] at h0
  simpa using h0.symm

theorem drop_succ_of_drop_cons {l : List Str} {i : Nat} {x : Str} {xs : List Str}
    (h : l.drop i = x :: xs) : l.drop (i + 1) = xs := by
  have h0 := List.drop_drop 1 i l
  rw [h] at h0
  simpa using h0.symm

theorem drop_add_of_drop_append {l : List Str} {i : Nat} {xs ys : List Str}
    (h : l.drop i = xs ++ ys) : l.drop (i + xs.length) = ys := by
  have h0 := List.drop_drop xs.length i l
  rw [h, List.drop_left] at h0
  exact h0.symm

theorem sections_loop_step (docstring_lines : List Str) (c w : Nat) (sp dp : Str)
    (name t : Str) (desc : String) (nx : Option Str)
    (more : List (Str × String × Option Str))
    (conts rest : List Str) (stop : Str) (i : Nat)
    (hsp : sp = List.replicate c ' ')
    (hdropi : docstring_lines.drop i =
      (sp ++ (name ++ ':' :: ' ' :: t)) :: (conts ++ stop :: rest))
    (hconts : ∀ l ∈ conts, contPasses ⟨i, name, desc, nx⟩ sp dp l)
    (hstop : stop ≠ [])
    (hstopnx : next_section_start stop nx sp = true) :
    sections_loop docstring_lines c sp dp w ((name, desc, nx) :: more) i =
      sections_loop docstring_lines c sp dp w more (i + 1 + conts.length) := by
  rw [sections_loop.eq_2]
  rw [get_of_drop_cons hdropi]
  simp only []
  rw [header_passes sp name t desc c i nx hsp]
  have hrem : remaining_description_problem_message ⟨i, name, desc, nx⟩
      docstring_lines sp dp w = (none, i + 1 + conts.length) := by
    unfold remaining_description_problem_message
    simp only []
    rw [drop_succ_of_drop_cons hdropi]
    rw [remaining_loop_skip _ _ _ _ conts stop rest _ hconts]
    rw [loop_stop _ _ _ _ stop rest _ hstop hstopnx]
  rw [hrem]

theorem cont_line_passes (i : Nat) (name : Str) (desc : String) (nx : Option Str)
    (sp u : Str) (c w : Nat)
    (hsp : sp = List.replicate c ' ') (hw : 1 ≤ w)
    (hu : [' '].isPrefixOf u = false)
    (hni : ∀ m, nx = some m →
      m.isPrefixOf (pyStrip ((sp ++ List.replicate w ' ') ++ u)) = false) :
    contPasses ⟨i, name, desc, nx⟩ sp (sp ++ List.replicate w ' ')
      ((sp ++ List.replicate w ' ') ++ u) := by
  refine ⟨?_, ?_, ?_, ?_⟩
  · simp only [ne_eq, List.append_eq_nil, List.replicate_eq_nil_iff, not_and]
    intro _ hcon
    omega
  · exact cont_not_next_start sp u c w nx hsp hw hni
  · exact List.isPrefixOf_iff_prefix.mpr ⟨u, rfl⟩
  · rw [List.drop_left]
    exact hu

theorem raw_accepts (docstring : Str) (c w k : Nat) (p : DocsPattern)
    (h1 : docstring ≠ []) (h2 : ['\n'].isPrefixOf docstring = true)
    (h3 : sections_loop (pySplitlines docstring) c (List.replicate c ' ')
        (List.replicate c ' ' ++ List.replicate w ' ') w (sections_list p) 1
        = some (none, k))
    (h4 : k < (pySplitlines docstring).length)
    (h5 : (pySplitlines docstring)[k]? = some (List.replicate c ' ')) :
    docstring_problem_message_raw docstring c p w = some none := by
  unfold docstring_problem_message_raw
  rw [if_neg h1, if_neg (by simp [h2])]
  simp only [h3]
  rw [if_neg (by push_neg; exact ⟨by omega, by rw [h5]⟩)]

theorem replicate_space_no_boundary (n : Nat) :
    ∀ ch ∈ List.replicate n ' ', isLineBoundary ch = false := by
  intro ch h
  rw [List.eq_of_mem_replicate h]
  decide

theorem header_no_boundary (sp name t : Str)
    (hsp : ∀ ch ∈ sp, isLineBoundary ch = false)
    (hn : ∀ ch ∈ name, isLineBoundary ch = false)
    (ht : ∀ ch ∈ t, isLineBoundary ch = false) :
    ∀ ch ∈ sp ++ (name ++ ':' :: ' ' :: t), isLineBoundary ch = false := by
  intro ch h
  rcases List.mem_append.mp h with h | h
  · exact hsp ch h
  · rcases List.mem_append.mp h with h | h
    · exact hn ch h
    · rcases List.mem_cons.mp h with rfl | h
      · decide
      · rcases List.mem_cons.mp h with rfl | h
        · decide
        · exact ht ch h

/-! Claim theorems. -/

/-- C1 (counterexample): the claim fails as stated.  The docstring below is
built exactly by the claimed grammar (empty first line; each section a header
line of indentation, name, colon, space and nonempty text, optionally
followed by continuation lines indented by the prefix plus the configured
width; final line equal to the prefix), yet the checker reports a problem:
the continuation line of the first section starts, after stripping, with the
next section's name, so the scan treats it as the start of the act section
and the act header check then fails on it. -/
theorem c1_counterexample :
    docstring_problem_message_raw
      (claimDocstring "    ".toList "        ".toList TEST_DOCS_PATTERN_DEFAULT
        ⟨"foo".toList, ["act more".toList]⟩ ⟨"run".toList, []⟩ ⟨"check".toList, []⟩)
      4 TEST_DOCS_PATTERN_DEFAULT 4 =
    some (some (colonMsg "act".toList 2)) := by
  decide

set_option maxHeartbeats 1000000 in
/-- C1 (amended): a docstring built by the claimed grammar is accepted by the
checker, provided additionally that the column offset and the indentation
width are at least one, that the section names have no leading whitespace and
no line-boundary characters, and that no continuation line's stripped content
begins with the next section's name. -/
theorem c1_amended (p : DocsPattern) (c w : Nat) (s1 s2 s3 : SectionInput)
    (sp dp : Str) (codePrefix : String)
    (hsp : sp = List.replicate c ' ') (hdp : dp = sp ++ List.replicate w ' ')
    (hc : 1 ≤ c) (hw : 1 ≤ w)
    (hn1 : pyLStrip p.arrange = p.arrange)
    (hb1 : ∀ ch ∈ p.arrange, isLineBoundary ch = false)
    (hn2 : pyLStrip p.act = p.act)
    (hb2 : ∀ ch ∈ p.act, isLineBoundary ch = false)
    (hn3 : pyLStrip p.assert_ = p.assert_)
    (hb3 : ∀ ch ∈ p.assert_, isLineBoundary ch = false)
    (hne1 : s1.text ≠ []) (ht1 : ∀ ch ∈ s1.text, isLineBoundary ch = false)
    (hne2 : s2.text ≠ []) (ht2 : ∀ ch ∈ s2.text, isLineBoundary ch = false)
    (hne3 : s3.text ≠ []) (ht3 : ∀ ch ∈ s3.text, isLineBoundary ch = false)
    (hu1 : ∀ u ∈ s1.conts, (∀ ch ∈ u, isLineBoundary ch = false) ∧
      [' '].isPrefixOf u = false ∧ p.act.isPrefixOf (pyStrip (dp ++ u)) = false)
    (hu2 : ∀ u ∈ s2.conts, (∀ ch ∈ u, isLineBoundary ch = false) ∧
      [' '].isPrefixOf u = false ∧ p.assert_.isPrefixOf (pyStrip (dp ++ u)) = false)
    (hu3 : ∀ u ∈ s3.conts, (∀ ch ∈ u, isLineBoundary ch = false) ∧
      [' '].isPrefixOf u = false) :
    docstring_problem_message codePrefix (claimDocstring sp dp p s1 s2 s3) c p w
      = some none := by
  subst hdp
  have hspb : ∀ ch ∈ sp, isLineBoundary ch = false := by
    rw [hsp]; exact replicate_space_no_boundary c
  have hspne : sp ≠ [] := by
    rw [hsp]; simp [List.replicate_eq_nil_iff]; omega
  have hdpb : ∀ ch ∈ sp ++ List.replicate w ' ', isLineBoundary ch = false := by
    intro ch h
    rcases List.mem_append.mp h with h | h
    · exact hspb ch h
    · exact replicate_space_no_boundary w ch h
  have hlines : pySplitlines (claimDocstring sp (sp ++ List.replicate w ' ') p s1 s2 s3)
      = [] :: ((blockLines sp (sp ++ List.replicate w ' ') p.arrange s1 ++
          blockLines sp (sp ++ List.replicate w ' ') p.act s2 ++
          blockLines sp (sp ++ List.replicate w ' ') p.assert_ s3) ++ [sp]) := by
    unfold claimDocstring
    rw [splitlines_cons_nl]
    rw [splitlines_joinLines _ _ ?_ hspb hspne]
    intro l hl
    have hblock : ∀ (nm : Str) (s : SectionInput),
        (∀ ch ∈ nm, isLineBoundary ch = false) →
        (∀ ch ∈ s.text, isLineBoundary ch = false) →
        (∀ u ∈ s.conts, ∀ ch ∈ u, isLineBoundary ch = false) →
        l ∈ blockLines sp (sp ++ List.replicate w ' ') nm s →
        ∀ ch ∈ l, isLineBoundary ch = false := by
      intro nm s hnm hst hsc hmem
      rcases List.mem_cons.mp hmem with rfl | hmem
      · exact header_no_boundary sp nm s.text hspb hnm hst
      · obtain ⟨u, hu, rfl⟩ := List.mem_map.mp hmem
        intro ch hch
        rcases List.mem_append.mp hch with h | h
        · exact hdpb ch h
        · exact hsc u hu ch h
    rcases List.mem_append.mp hl with hl' | hl'
    · rcases List.mem_append.mp hl' with hl'' | hl''
      · exact hblock p.arrange s1 hb1 ht1 (fun u hu => (hu1 u hu).1) hl''
      · exact hblock p.act s2 hb2 ht2 (fun u hu => (hu2 u hu).1) hl''
    · exact hblock p.assert_ s3 hb3 ht3 (fun u hu => (hu3 u hu).1) hl'
  subst hsp
  have hraw : docstring_problem_message_raw
      (claimDocstring (List.replicate c ' ')
        (List.replicate c ' ' ++ List.replicate w ' ') p s1 s2 s3) c p w
      = some none := by
    have d1 : ([] :: ((blockLines (List.replicate c ' ')
        (List.replicate c ' ' ++ List.replicate w ' ') p.arrange s1 ++
        blockLines (List.replicate c ' ')
          (List.replicate c ' ' ++ List.replicate w ' ') p.act s2 ++
        blockLines (List.replicate c ' ')
          (List.replicate c ' ' ++ List.replicate w ' ') p.assert_ s3) ++
        [List.replicate c ' '])).drop 1
        = (List.replicate c ' ' ++ (p.arrange ++ ':' :: ' ' :: s1.text)) ::
          ((s1.conts.map (fun u => (List.replicate c ' ' ++ List.replicate w ' ') ++ u)) ++
            (List.replicate c ' ' ++ (p.act ++ ':' :: ' ' :: s2.text)) ::
              ((s2.conts.map (fun u => (List.replicate c ' ' ++ List.replicate w ' ') ++ u)) ++
                (List.replicate c ' ' ++ (p.assert_ ++ ':' :: ' ' :: s3.text)) ::
                  ((s3.conts.map (fun u => (List.replicate c ' ' ++ List.replicate w ' ') ++ u)) ++
                    [List.replicate c ' ']))) := by
      simp [blockLines, headerLine]
    have d2 := drop_add_of_drop_append (drop_succ_of_drop_cons d1)
    have d3 := drop_add_of_drop_append (drop_succ_of_drop_cons d2)
    have d4 := drop_add_of_drop_append (drop_succ_of_drop_cons d3)
    have hcs1 : ∀ l ∈ s1.conts.map
        (fun u => (List.replicate c ' ' ++ List.replicate w ' ') ++ u),
        contPasses ⟨1, p.arrange, ARRANGE_DESCRIPTION, some p.act⟩
          (List.replicate c ' ') (List.replicate c ' ' ++ List.replicate w ' ') l := by
      intro l hl
      obtain ⟨u, hu, rfl⟩ := List.mem_map.mp hl
      exact cont_line_passes 1 p.arrange ARRANGE_DESCRIPTION (some p.act)
        (List.replicate c ' ') u c w rfl hw (hu1 u hu).2.1
        (fun m hm => by cases Option.some_inj.mp hm; exact (hu1 u hu).2.2)
    have hcs2 : ∀ l ∈ s2.conts.map
        (fun u => (List.replicate c ' ' ++ List.replicate w ' ') ++ u),
        contPasses ⟨1 + 1 + (s1.conts.map
            (fun u => (List.replicate c ' ' ++ List.replicate w ' ') ++ u)).length,
          p.act, ACT_DESCRIPTION, some p.assert_⟩
          (List.replicate c ' ') (List.replicate c ' ' ++ List.replicate w ' ') l := by
      intro l hl
      obtain ⟨u, hu, rfl⟩ := List.mem_map.mp hl
      exact cont_line_passes _ p.act ACT_DESCRIPTION (some p.assert_)
        (List.replicate c ' ') u c w rfl hw (hu2 u hu).2.1
        (fun m hm => by cases Option.some_inj.mp hm; exact (hu2 u hu).2.2)
    have hcs3 : ∀ l ∈ s3.conts.map
        (fun u => (List.replicate c ' ' ++ List.replicate w ' ') ++ u),
        contPasses ⟨1 + 1 + (s1.conts.map
            (fun u => (List.replicate c ' ' ++ List.replicate w ' ') ++ u)).length + 1 +
            (s2.conts.map
              (fun u => (List.replicate c ' ' ++ List.replicate w ' ') ++ u)).length,
          p.assert_, ASSERT_DESCRIPTION, none⟩
          (List.replicate c ' ') (List.replicate c ' ' ++ List.replicate w ' ') l := by
      intro l hl
      obtain ⟨u, hu, rfl⟩ := List.mem_map.mp hl
      exact cont_line_passes _ p.assert_ ASSERT_DESCRIPTION none
        (List.replicate c ' ') u c w rfl hw (hu3 u hu).2
        (fun m hm => nomatch hm)
    apply raw_accepts _ c w _ p
    · simp [claimDocstring]
    · exact List.isPrefixOf_iff_prefix.mpr ⟨_, rfl⟩
    · rw [hlines]
      show sections_loop _ c _ _ w
        ((p.arrange, ARRANGE_DESCRIPTION, some p.act) ::
          (p.act, ACT_DESCRIPTION, some p.assert_) ::
          (p.assert_, ASSERT_DESCRIPTION, none) :: []) 1 = _
      rw [sections_loop_step _ c w _ _ p.arrange s1.text ARRANGE_DESCRIPTION
        (some p.act) _ _ _ _ 1 rfl d1 hcs1 (by simp)
        (header_next_start _ p.act (' ' :: s2.text) c rfl hn2)]
      rw [sections_loop_step _ c w _ _ p.act s2.text ACT_DESCRIPTION
        (some p.assert_) _ _ _ _ _ rfl d2 hcs2 (by simp)
        (header_next_start _ p.assert_ (' ' :: s3.text) c rfl hn3)]
      rw [sections_loop_step _ c w _ _ p.assert_ s3.text ASSERT_DESCRIPTION
        none _ _ _ _ _ rfl d3 hcs3 hspne (final_next_start _ none)]
      rw [sections_loop.eq_1]
    · rw [hlines]
      have hlen := List.length_drop
        (1 + 1 + (s1.conts.map
          (fun u => (List.replicate c ' ' ++ List.replicate w ' ') ++ u)).length + 1 +
          (s2.conts.map
            (fun u => (List.replicate c ' ' ++ List.replicate w ' ') ++ u)).length + 1 +
          (s3.conts.map
            (fun u => (List.replicate c ' ' ++ List.replicate w ' ') ++ u)).length)
        ([] :: ((blockLines (List.replicate c ' ')
          (List.replicate c ' ' ++ List.replicate w ' ') p.arrange s1 ++
          blockLines (List.replicate c ' ')
            (List.replicate c ' ' ++ List.replicate w ' ') p.act s2 ++
          blockLines (List.replicate c ' ')
            (List.replicate c ' ' ++ List.replicate w ' ') p.assert_ s3) ++
          [List.replicate c ' ']))
      rw [d4] at hlen
      simp only [List.length_singleton] at hlen
      omega
    · rw [hlines]
      exact get_of_drop_cons d4
  unfold docstring_problem_message
  rw [hraw]
  rfl

/-- C1 (witness): the amended theorem applied at a concrete pattern, offsets
and section inputs; all side conditions hold by computation and the resulting
docstring is accepted. -/
theorem c1_amended_witness :
    ("    ".toList = List.replicate 4 ' ' ∧
     "        ".toList = "    ".toList ++ List.replicate 4 ' ' ∧
     1 ≤ 4 ∧
     pyLStrip "arrange".toList = "arrange".toList ∧
     (∀ ch ∈ "arrange".toList, isLineBoundary ch = false) ∧
     pyLStrip "act".toList = "act".toList ∧
     (∀ ch ∈ "act".toList, isLineBoundary ch = false) ∧
     pyLStrip "assert".toList = "assert".toList ∧
     (∀ ch ∈ "assert".toList, isLineBoundary ch = false) ∧
     "a".toList ≠ [] ∧ (∀ ch ∈ "a".toList, isLineBoundary ch = false) ∧
     "b".toList ≠ [] ∧ (∀ ch ∈ "b".toList, isLineBoundary ch = false) ∧
     "c".toList ≠ [] ∧ (∀ ch ∈ "c".toList, isLineBoundary ch = false) ∧
     (∀ u ∈ ["more a".toList], (∀ ch ∈ u, isLineBoundary ch = false) ∧
       [' '].isPrefixOf u = false ∧
       List.isPrefixOf "act".toList (pyStrip ("        ".toList ++ u)) = false) ∧
     (∀ u ∈ ([] : List Str), (∀ ch ∈ u, isLineBoundary ch = false) ∧
       [' '].isPrefixOf u = false ∧
       List.isPrefixOf "assert".toList (pyStrip ("        ".toList ++ u)) = false) ∧
     (∀ u ∈ ["x".toList], (∀ ch ∈ u, isLineBoundary ch = false) ∧
       [' '].isPrefixOf u = false)) ∧
    docstring_problem_message "XYZ"
      (claimDocstring "    ".toList "        ".toList TEST_DOCS_PATTERN_DEFAULT
        ⟨"a".toList, ["more a".toList]⟩ ⟨"b".toList, []⟩ ⟨"c".toList, ["x".toList]⟩)
      4 TEST_DOCS_PATTERN_DEFAULT 4 = some none :=
  ⟨by decide,
   c1_amended TEST_DOCS_PATTERN_DEFAULT 4 4
     ⟨"a".toList, ["more a".toList]⟩ ⟨"b".toList, []⟩ ⟨"c".toList, ["x".toList]⟩
     "    ".toList "        ".toList "XYZ"
     (by decide) (by decide) (by decide) (by decide)
     (by decide) (by decide) (by decide) (by decide) (by decide) (by decide)
     (by decide) (by decide) (by decide) (by decide) (by decide) (by decide)
     (by decide) (by decide) (by decide)⟩

/-- C2: evaluating the checker at the docstring consisting of a single
newline: for every column offset, pattern and indent size the result is the
modelled uncaught IndexError (the line list is a single empty line, and the
first section's lookup of line 1 is out of bounds), contradicting the claim
that the checker always returns a value without raising. -/
theorem c2_indexerror_eval (col_offset : Nat) (docs_pattern : DocsPattern)
    (indent_size : Nat) :
    docstring_problem_message_raw ['\n'] col_offset docs_pattern indent_size
      = none := rfl

/-- C3 (counterexample): a line equal to the section prefix is classified by
the code as the start of the next section (third branch: the prefix is
followed by nothing, and nothing does not start with a space), but none of
the claim's three conditions holds for it: in particular there is no
non-space character after the prefix. -/
theorem c3_counterexample :
    next_section_start "    ".toList (some "act".toList) "    ".toList = true ∧
    ¬ claimedNextSectionStart "    ".toList (some "act".toList) "    ".toList := by
  refine ⟨by decide, ?_⟩
  intro h
  rcases h with ⟨name, hn, hp⟩ | ⟨hlen, _⟩ | ⟨_, ch, rest, hd, _⟩
  · rw [show name = "act".toList from (Option.some_inj.mp hn).symm] at hp
    revert hp
    decide
  · revert hlen
    decide
  · have : ("    ".toList).drop ("    ".toList).length = [] := by decide
    rw [this] at hd
    exact List.noConfusion hd

/-- C3 (amended): the line is classified as the start of the next section if
and only if (i) its stripped content begins with the next section's name when
one exists, or (ii) it is strictly shorter than the section prefix and all
spaces, or (iii) it starts with the section prefix and the remainder does not
begin with a space (the remainder may be empty). -/
theorem c3_amended (line : Str) (next_section_name : Option Str)
    (sectionPrefix : Str) :
    next_section_start line next_section_name sectionPrefix = true ↔
      (∃ name, next_section_name = some name ∧
        name.isPrefixOf (pyStrip line) = true) ∨
      (line.length < sectionPrefix.length ∧ ∀ ch ∈ line, ch = ' ') ∨
      (sectionPrefix.isPrefixOf line = true ∧
        [' '].isPrefixOf (line.drop sectionPrefix.length) = false) := by
  unfold next_section_start
  simp only [Bool.or_eq_true, Bool.and_eq_true, decide_eq_true_eq,
    Bool.not_eq_true', all_spaces_iff]
  cases next_section_name with
  | none => simp
  | some name => simp [or_assoc]

/-- C4 (counterexample): the header line consisting of the name, the colon
and a single trailing space has only whitespace after the colon, yet the
header check reports nothing: the code only tests whether the rest of the
line is empty, not whether it is all whitespace. -/
theorem c4_counterexample :
    (∀ ch ∈ ("arrange: ".toList).drop ("arrange".toList.length + 1),
      pyIsSpace ch = true) ∧
    ("arrange: ".toList).drop ("arrange".toList.length + 1) ≠ [] ∧
    section_start_problem_message "arrange: ".toList
      ⟨1, "arrange".toList, ARRANGE_DESCRIPTION, some "act".toList⟩ 0 [] = none := by
  refine ⟨by decide, by decide, by decide⟩

/-- C4 (amended): for a header line that passes the emptiness, name-substring,
indentation and colon checks, the missing-description violation is reported
if and only if nothing at all follows the colon; a whitespace remainder, such
as a single trailing space, passes the check. -/
theorem c4_amended (line : Str) (sec : Section) (col_offset : Nat)
    (sectionPrefix : Str)
    (h1 : line ≠ []) (h2 : decide (sec.name <:+: line) = true)
    (h3 : sectionPrefix.isPrefixOf line = true)
    (h4 : (sec.name ++ [':']).isPrefixOf (line.drop col_offset) = true) :
    (section_start_problem_message line sec col_offset sectionPrefix =
      some (noDescriptionMsg sec.name sec.description sec.index_) ↔
    line.drop (col_offset + sec.name.length + 1) = []) := by
  by_cases hd : line.drop (col_offset + sec.name.length + 1) = []
  · simp [section_start_problem_message, h1, h2, h3, h4, hd]
  · simp [section_start_problem_message, h1, h2, h3, h4, hd]

/-- C4 (witness): the amended theorem applied to the bare header line with
nothing after the colon: all side checks pass and the equivalence holds, so
the missing-description violation is reported exactly there. -/
theorem c4_amended_witness :
    ("arrange:".toList ≠ [] ∧
     decide ("arrange".toList <:+: "arrange:".toList) = true ∧
     List.isPrefixOf [] "arrange:".toList = true ∧
     List.isPrefixOf ("arrange".toList ++ [':'])
       ("arrange:".toList.drop 0) = true) ∧
    (section_start_problem_message "arrange:".toList
        ⟨1, "arrange".toList, ARRANGE_DESCRIPTION, some "act".toList⟩ 0 [] =
      some (noDescriptionMsg "arrange".toList ARRANGE_DESCRIPTION 1) ↔
    "arrange:".toList.drop (0 + "arrange".toList.length + 1) = []) :=
  ⟨⟨by decide, by decide, by decide, by decide⟩,
   c4_amended "arrange:".toList
     ⟨1, "arrange".toList, ARRANGE_DESCRIPTION, some "act".toList⟩ 0 []
     (by decide) (by decide) (by decide) (by decide)⟩

/-- C5: when the continuation scan of a section reaches an empty line, every
earlier scanned line having passed as a continuation line (in particular none
was recognised as the start of the next section), the scan reports the
empty-line-in-description violation naming that line, and does not classify
the empty line as a next-section start even though the empty line satisfies
the heuristic's too-short-and-all-spaces condition. -/
theorem c5_empty_line_reported (sec : Section)
    (docstring_lines : List Str) (sp dp : Str) (w : Nat)
    (pre conts rest : List Str)
    (hsplit : docstring_lines = pre ++ conts ++ [] :: rest)
    (hlen : pre.length = sec.index_ + 1)
    (hc : ∀ l ∈ conts, contPasses sec sp dp l) :
    remaining_description_problem_message sec docstring_lines sp dp w =
      (some (emptyLineMsg sec.description (sec.index_ + 1 + conts.length)),
       sec.index_ + 1 + conts.length) := by
  subst hsplit
  unfold remaining_description_problem_message
  rw [← hlen, List.append_assoc, List.drop_left]
  rw [remaining_loop_skip sec sp dp w conts [] rest pre.length hc]
  have hfirst : ∀ (ls : List Str) (j : Nat),
      remaining_description_loop sec sp dp w ([] :: ls) j =
        (some (emptyLineMsg sec.description j), j) := by
    intro ls j
    cases ls with
    | nil => rw [remaining_description_loop.eq_2, if_pos rfl]
    | cons a as => rw [remaining_description_loop.eq_3, if_pos rfl]
  rw [hfirst, hlen]

/-- C5 (witness): the theorem applied to a concrete docstring whose setup
section has one valid continuation line followed by an empty line; the
empty-line violation for line 3 is returned. -/
theorem c5_witness :
    (([[], "    arrange: a".toList] ++ ["        more".toList] ++ [] :: [] :
        List Str) = [[], "    arrange: a".toList] ++ ["        more".toList] ++
        [] :: []) ∧
    ([[], "    arrange: a".toList] : List Str).length = 1 + 1 ∧
    (∀ l ∈ ["        more".toList],
      contPasses ⟨1, "arrange".toList, ARRANGE_DESCRIPTION, some "act".toList⟩
        "    ".toList "        ".toList l) ∧
    remaining_description_problem_message
      ⟨1, "arrange".toList, ARRANGE_DESCRIPTION, some "act".toList⟩
      ([[], "    arrange: a".toList] ++ ["        more".toList] ++ [] :: [])
      "    ".toList "        ".toList 4 =
      (some (emptyLineMsg ARRANGE_DESCRIPTION (1 + 1 + 1)), 1 + 1 + 1) := by
  refine ⟨rfl, by decide, by decide, ?_⟩
  have h := c5_empty_line_reported
    ⟨1, "arrange".toList, ARRANGE_DESCRIPTION, some "act".toList⟩
    ([[], "    arrange: a".toList] ++ ["        more".toList] ++ [] :: [])
    "    ".toList "        ".toList 4
    [[], "    arrange: a".toList] ["        more".toList] []
    rfl (by decide) (by decide)
  simpa using h

/-- C6: for a docstring that passes the emptiness and leading-newline checks
and whose three sections all pass, ending the per-section loop at index k,
the checker accepts exactly when line k exists and is exactly the indentation
prefix, and otherwise returns the closing-line diagnostic naming line k. -/
theorem c6_closing_line (docstring : Str) (col_offset : Nat)
    (docs_pattern : DocsPattern) (indent_size : Nat) (k : Nat)
    (h1 : docstring ≠ [])
    (h2 : ['\n'].isPrefixOf docstring = true)
    (h3 : sections_loop (pySplitlines docstring) col_offset
        (List.replicate col_offset ' ')
        (List.replicate col_offset ' ' ++ List.replicate indent_size ' ')
        indent_size (sections_list docs_pattern) 1 = some (none, k)) :
    (docstring_problem_message_raw docstring col_offset docs_pattern indent_size
        = some none ↔
      k < (pySplitlines docstring).length ∧
        (pySplitlines docstring)[k]? = some (List.replicate col_offset ' ')) ∧
    ((¬ (k < (pySplitlines docstring).length ∧
        (pySplitlines docstring)[k]? = some (List.replicate col_offset ' '))) →
      docstring_problem_message_raw docstring col_offset docs_pattern indent_size
        = some (some (closingMsg k))) := by
  have hmain : docstring_problem_message_raw docstring col_offset docs_pattern
      indent_size =
      if (pySplitlines docstring).length ≤ k ∨
          (pySplitlines docstring)[k]? ≠ some (List.replicate col_offset ' ') then
        some (some (closingMsg k))
      else some none := by
    unfold docstring_problem_message_raw
    rw [if_neg h1, if_neg (by simp [h2])]
    simp only [h3]
  rw [hmain]
  by_cases hcond : (pySplitlines docstring).length ≤ k ∨
      (pySplitlines docstring)[k]? ≠ some (List.replicate col_offset ' ')
  · rw [if_pos hcond]
    constructor
    · constructor
      · intro h
        exact absurd h (by simp)
      · intro ⟨ha, hb⟩
        rcases hcond with h | h
        · omega
        · exact absurd hb h
    · intro _
      rfl
  · rw [if_neg hcond]
    push_neg at hcond
    constructor
    · simp only [true_iff]
      exact ⟨by omega, hcond.2⟩
    · intro h
      exact absurd ⟨by omega, hcond.2⟩ h

/-- C6 (witness): the theorem applied to a concrete valid docstring; the
section loop ends at index 4, line 4 is exactly the four-space prefix, and
the docstring is accepted. -/
theorem c6_witness :
    ("\n    arrange: a\n    act: b\n    assert: c\n    ".toList ≠ [] ∧
     ['\n'].isPrefixOf
       "\n    arrange: a\n    act: b\n    assert: c\n    ".toList = true ∧
     sections_loop
       (pySplitlines "\n    arrange: a\n    act: b\n    assert: c\n    ".toList)
       4 (List.replicate 4 ' ') (List.replicate 4 ' ' ++ List.replicate 4 ' ')
       4 (sections_list TEST_DOCS_PATTERN_DEFAULT) 1 = some (none, 4)) ∧
    docstring_problem_message_raw
      "\n    arrange: a\n    act: b\n    assert: c\n    ".toList 4
      TEST_DOCS_PATTERN_DEFAULT 4 = some none :=
  ⟨⟨by decide, by decide, by decide⟩,
   (c6_closing_line "\n    arrange: a\n    act: b\n    assert: c\n    ".toList 4
     TEST_DOCS_PATTERN_DEFAULT 4 4 (by decide) (by decide) (by decide)).1.mpr
     ⟨by decide, by decide⟩⟩

/-- C7: for a function whose name matches the test-function pattern and whose
body has no leading string-constant statement (empty body, pass, a bare
non-string expression, and so on), the visit of that function definition
prepends exactly one MISSING problem anchored at the function's own line and
column to the problems of its children; the equation shows the result does
not depend on the docstring checker, which is never consulted for this
function.  For a top-level function the recorded column offset is 0, as
supplied by the parser. -/
theorem c7_missing_diagnostic (cfg : Config) (name : Str)
    (lineno col_offset : Nat) (body : List PyStmt)
    (hmatch : re_match cfg.test_function_pattern name = true)
    (hmiss : body_docstring body = none) :
    visit_stmt cfg (.functionDef name lineno col_offset body) =
      (visit_stmts cfg body).map
        (fun rest => ⟨lineno, col_offset, MISSING_MSG cfg.codePrefix⟩ :: rest) := by
  rw [visit_stmt]
  unfold check_function
  rw [if_pos hmatch, hmiss]
  cases visit_stmts cfg body <;> rfl

/-- C7 (witness): the theorem applied to a matching function whose body is a
single pass statement; it contributes exactly the MISSING problem at its own
position. -/
theorem c7_witness :
    (re_match (defaultConfig "TDO").test_function_pattern "test_a".toList = true ∧
     body_docstring [PyStmt.leaf] = none) ∧
    visit_stmt (defaultConfig "TDO")
        (.functionDef "test_a".toList 2 0 [.leaf]) =
      (visit_stmts (defaultConfig "TDO") [PyStmt.leaf]).map
        (fun rest => ⟨2, 0, MISSING_MSG "TDO"⟩ :: rest) :=
  ⟨⟨by decide, rfl⟩,
   c7_missing_diagnostic (defaultConfig "TDO") "test_a".toList 2 0 [PyStmt.leaf]
     (by decide) rfl⟩

theorem visit_stmts_mem (cfg : Config) (l : List PyStmt) (t : PyStmt)
    (qs : List Problem) (hv : visit_stmts cfg l = some qs) (hm : t ∈ l) :
    ∃ ps, visit_stmt cfg t = some ps ∧ ∀ x ∈ ps, x ∈ qs := by
  induction l generalizing qs with
  | nil => cases hm
  | cons s rest ih =>
    rw [visit_stmts] at hv
    cases hs : visit_stmt cfg s with
    | none => rw [hs] at hv; cases hv
    | some ps =>
      rw [hs] at hv
      cases hrest : visit_stmts cfg rest with
      | none => rw [hrest] at hv; cases hv
      | some qs' =>
        rw [hrest] at hv
        have hqs : qs = ps ++ qs' := by
          cases hv
          rfl
        subst hqs
        rcases List.mem_cons.mp hm with rfl | hm'
        · exact ⟨ps, hs, fun x hx => List.mem_append_left _ hx⟩
        · obtain ⟨ps', hps', hsub⟩ := ih qs' hrest hm'
          exact ⟨ps', hps', fun x hx => List.mem_append_right _ (hsub x hx)⟩

/-- C8: the visitor reaches every function definition at any nesting depth
(inside other functions or any compound statement, whether or not the
enclosing nodes matched); if the function's name matches the pattern under
the anchored prefix semantics of re.match and its docstring is missing or
rejected by the checker, the per-function problem appears among the problems
of the whole traversal (provided the traversal completes without the modelled
IndexError). -/
theorem c8_nested_visited (cfg : Config) (t : PyStmt) (name : Str)
    (lineno col_offset : Nat) (body : List PyStmt) (ps : List Problem)
    (hocc : OccursIn (.functionDef name lineno col_offset body) t)
    (hmatch : re_match cfg.test_function_pattern name = true)
    (hbad : body_docstring body = none ∨
      ∃ s slineno scol msg, body_docstring body = some (s, slineno, scol) ∧
        docstring_problem_message cfg.codePrefix s scol cfg.test_docs_pattern
          cfg.indent_size = some (some msg))
    (hv : visit_stmt cfg t = some ps) :
    ∃ prob, check_function cfg name lineno col_offset body = some (some prob) ∧
      prob ∈ ps := by
  have hcf : ∃ prob, check_function cfg name lineno col_offset body
      = some (some prob) := by
    rcases hbad with hb | ⟨s, sl, sc, msg, hb, hmsg⟩
    · refine ⟨⟨lineno, col_offset, MISSING_MSG cfg.codePrefix⟩, ?_⟩
      unfold check_function
      rw [if_pos hmatch, hb]
    · refine ⟨⟨sl, sc, msg⟩, ?_⟩
      unfold check_function
      rw [if_pos hmatch, hb]
      dsimp only
      rw [hmsg]
  obtain ⟨prob, hcheck⟩ := hcf
  refine ⟨prob, hcheck, ?_⟩
  clear hbad
  induction hocc generalizing ps with
  | here =>
    rw [visit_stmt, hcheck] at hv
    cases hb : visit_stmts cfg body with
    | none => rw [hb] at hv; cases hv
    | some rest =>
      rw [hb] at hv
      have : ps = prob :: rest := by cases hv; rfl
      subst this
      exact List.mem_cons_self _ _
  | inFunctionDef nm ln co bd hmem hsub ih =>
    rw [visit_stmt] at hv
    cases hcf2 : check_function cfg nm ln co bd with
    | none => rw [hcf2] at hv; cases hv
    | some p? =>
      rw [hcf2] at hv
      cases hb : visit_stmts cfg bd with
      | none => rw [hb] at hv; cases hv
      | some rest =>
        rw [hb] at hv
        have : ps = p?.toList ++ rest := by cases hv; rfl
        subst this
        obtain ⟨ps', hps', hsub'⟩ := visit_stmts_mem cfg bd _ rest hb hmem
        exact List.mem_append_right _ (hsub' prob (ih ps' hps'))
  | inCompound bd hmem hsub ih =>
    rw [visit_stmt] at hv
    obtain ⟨ps', hps', hsub'⟩ := visit_stmts_mem cfg bd _ ps hv hmem
    exact hsub' prob (ih ps' hps')

/-- C8 (witness): the theorem applied to a matching pass-bodied test method
nested one level inside a class-like compound statement; its MISSING problem
is the traversal's single problem. -/
theorem c8_witness :
    (re_match (defaultConfig "TDO").test_function_pattern "test_a".toList = true ∧
     body_docstring [PyStmt.leaf] = none ∧
     visit_stmt (defaultConfig "TDO")
       (.compound [.functionDef "test_a".toList 3 4 [.leaf]]) =
       some [⟨3, 4, MISSING_MSG "TDO"⟩]) ∧
    (∃ prob, check_function (defaultConfig "TDO") "test_a".toList 3 4 [PyStmt.leaf]
        = some (some prob) ∧ prob ∈ [(⟨3, 4, MISSING_MSG "TDO"⟩ : Problem)]) :=
  ⟨⟨by decide, rfl, rfl⟩,
   c8_nested_visited (defaultConfig "TDO")
     (.compound [.functionDef "test_a".toList 3 4 [.leaf]])
     "test_a".toList 3 4 [PyStmt.leaf] [⟨3, 4, MISSING_MSG "TDO"⟩]
     (OccursIn.inCompound [.functionDef "test_a".toList 3 4 [.leaf]] (by simp)
       (OccursIn.here (.functionDef "test_a".toList 3 4 [.leaf])))
     (by decide) (Or.inl rfl) rfl⟩

theorem splitOnSlash_ne_nil : ∀ s : Str, splitOnSlash s ≠ []
  | [] => by simp [splitOnSlash]
  | c :: rest => by
    rw [splitOnSlash.eq_def]
    by_cases hc : c = '/'
    · simp [hc]
    · simp only [hc, if_false]
      cases h : splitOnSlash rest <;> simp

theorem splitOnSlash_append : ∀ (d n : Str),
    splitOnSlash (d ++ '/' :: n) = splitOnSlash d ++ splitOnSlash n
  | [], n => by simp [splitOnSlash]
  | a :: d', n => by
    by_cases ha : a = '/'
    · subst ha
      rw [List.cons_append, splitOnSlash.eq_def]
      simp only [if_pos rfl]
      rw [splitOnSlash_append d' n]
      rw [show splitOnSlash ('/' :: d') = [] :: splitOnSlash d' from by
        rw [splitOnSlash.eq_def]; simp]
      rfl
    · rw [List.cons_append, splitOnSlash.eq_def]
      simp only [ha, if_false]
      rw [splitOnSlash_append d' n]
      rw [show splitOnSlash (a :: d') = match splitOnSlash d' with
        | [] => [[a]]
        | p :: ps => (a :: p) :: ps from by rw [splitOnSlash.eq_def]; simp [ha]]
      cases h : splitOnSlash d' with
      | nil => exact absurd h (splitOnSlash_ne_nil d')
      | cons p ps => rfl

theorem splitOnSlash_no_slash : ∀ n : Str, '/' ∉ n → splitOnSlash n = [n]
  | [], _ => rfl
  | c :: rest, h => by
    rw [splitOnSlash.eq_def]
    have hc : ¬ c = '/' := fun hx => h (by simp [hx])
    simp only [hc, if_false]
    rw [splitOnSlash_no_slash rest (fun hx => h (by simp [hx]))]

theorem pathName_basename (d n : Str) (h1 : '/' ∉ n) (h2 : n ≠ [])
    (h3 : n ≠ ['.']) :
    pathName (d ++ '/' :: n) = n ∧ pathName n = n := by
  have hfil : (splitOnSlash n).filter (fun p => decide (p ≠ [] ∧ p ≠ ['.'])) = [n] := by
    rw [splitOnSlash_no_slash n h1]
    simp [h2, h3]
  constructor
  · unfold pathName pathParts
    rw [splitOnSlash_append d n, List.filter_append, hfil]
    rw [List.getLast?_concat]
    rfl
  · unfold pathName pathParts
    rw [hfil]
    rfl

/-- C9: when the file name does not match the configured file-name pattern,
the plugin yields the empty sequence for every syntax tree, indistinguishably
from a matched file without problems. -/
theorem c9_unmatched_filename (cfg : PluginConfig) (tree : List PyStmt)
    (filename : Str)
    (h : re_match cfg.test_docs_filename_pattern (pathName filename) = false) :
    Plugin.run cfg tree filename = some [] := by
  unfold Plugin.run
  rw [if_pos h]

/-- C9 (witness): the theorem applied to the default configuration, the
non-matching file helpers.py and a tree that would otherwise produce a
MISSING diagnostic; the result is empty. -/
theorem c9_witness :
    re_match (defaultPluginConfig "TDO").test_docs_filename_pattern
      (pathName "helpers.py".toList) = false ∧
    Plugin.run (defaultPluginConfig "TDO")
      [.functionDef "test_a".toList 2 0 [.leaf]] "helpers.py".toList = some [] :=
  ⟨by decide,
   c9_unmatched_filename (defaultPluginConfig "TDO") _ _ (by decide)⟩

/-- C10: the file-name pattern is matched against the base name only: for a
base name without slashes (and not empty or a lone dot, so that it is a real
base name), prefixing any directory path leaves the plugin's output
unchanged. -/
theorem c10_basename_only (cfg : PluginConfig) (tree : List PyStmt)
    (dirs name : Str) (h1 : '/' ∉ name) (h2 : name ≠ []) (h3 : name ≠ ['.']) :
    Plugin.run cfg tree (dirs ++ '/' :: name) = Plugin.run cfg tree name := by
  obtain ⟨ha, hb⟩ := pathName_basename dirs name h1 h2 h3
  unfold Plugin.run
  rw [ha, hb]

/-- C10 (witness): the theorem applied to the default configuration and the
path a/b/test_x.py: the run result equals the run on test_x.py alone. -/
theorem c10_witness :
    ('/' ∉ "test_x.py".toList ∧ "test_x.py".toList ≠ [] ∧
      "test_x.py".toList ≠ ['.']) ∧
    Plugin.run (defaultPluginConfig "TDO")
        [.functionDef "test_a".toList 2 0 [.leaf]]
        ("a/b".toList ++ '/' :: "test_x.py".toList) =
      Plugin.run (defaultPluginConfig "TDO")
        [.functionDef "test_a".toList 2 0 [.leaf]] "test_x.py".toList :=
  ⟨⟨by decide, by decide, by decide⟩,
   c10_basename_only (defaultPluginConfig "TDO") _ "a/b".toList "test_x.py".toList
     (by decide) (by decide) (by decide)⟩

end Flake8TestDocs
